import Mathlib

/-!
Shallow embedding of the marketing-video generator
(`src/js/video-generator.js`): the photo data model, the frame
timing and fade arithmetic of the scheduler, the per-frame error policy, the
image-load barrier, the write-once completion guard with its cleanup,
and the sort/filter wrapper `generateAndDownloadVideo`.

Numeric values computed by the generator are embedded as exact rationals
(`ℚ`); frame counters are naturals.  Exceptions become `Except`,
external image decoding becomes an explicit `decode` parameter, and the
interleaving of the three asynchronous completion signals becomes a
fold over the list of signals in arrival order (the event loop is
single-threaded, so an interleaving is exactly such a list).
-/

namespace VideoGen

/-- A photo record as the generator receives it.  Each field models the
corresponding JS property; `none` stands for an absent (falsy) value. -/
structure Photo where
  image_data : Option String
  thumbnail_data : Option String
  category : Option String
  sequence : Option Int
deriving DecidableEq

/-- The fallback object of `photos[photoIndex] || instance-of-nothing`:
a record with every property absent. -/
def emptyPhoto : Photo := ⟨none, none, none, none⟩

/-- A decoded drawable (the loaded `Image` element); it carries the
source string it was decoded from. -/
structure Drawable where
  src : String
deriving DecidableEq

/-- The options destructured at the top of `generateMarketingVideo`,
with the default values of the source. -/
structure VideoOptions where
  width : ℚ := 1080
  height : ℚ := 1920
  fps : ℚ := 30
  photoDuration : ℚ := 2000
  transitionDuration : ℚ := 500
  bitrate : ℚ := 5000000
  timeoutMs : ℚ := 60000

/-- Source line: `const totalDuration = images.length * photoDuration`. -/
def totalDuration (n : ℕ) (photoDuration : ℚ) : ℚ := n * photoDuration

/-- Source line: `const totalFrames = (totalDuration / 1000) * fps`.
Note the source applies no rounding here. -/
def totalFrames (n : ℕ) (photoDuration fps : ℚ) : ℚ :=
  totalDuration n photoDuration / 1000 * fps

/-- The frame-count formula of the spec, kept separate for comparison with
`totalFrames`: round(photoCount * photoDurationMs / 1000 * fps). -/
def specTotalFrames (n : ℕ) (photoDuration fps : ℚ) : ℤ :=
  round ((n : ℚ) * photoDuration / 1000 * fps)

/-- Source line: `const currentTime = (frame / fps) * 1000`. -/
def currentTime (fps : ℚ) (frame : ℕ) : ℚ := (frame : ℚ) / fps * 1000

/-- JS `%` on the nonnegative operands used by the generator:
`a - b * floor(a / b)` (for `a ≥ 0, b > 0` this is the JS remainder). -/
def jsMod (a b : ℚ) : ℚ := a - b * ⌊a / b⌋

/-- Source line: `const photoIndex = Math.floor(currentTime / photoDuration)`. -/
def photoIndex (fps photoDuration : ℚ) (frame : ℕ) : ℤ :=
  ⌊currentTime fps frame / photoDuration⌋

/-- Source line: `const photoProgress = (currentTime % photoDuration) / photoDuration`. -/
def photoProgress (fps photoDuration : ℚ) (frame : ℕ) : ℚ :=
  jsMod (currentTime fps frame) photoDuration / photoDuration

/-- The fade alpha computed in `renderFrame`, with the local
names of the source inlined: `fadeInEnd = transitionDuration / photoDuration` and
`fadeOutStart = 1 - (transitionDuration / photoDuration)`; alpha starts
at 1 and the two `if` branches override it. -/
def fadeAlpha (transitionDuration photoDuration progress : ℚ) : ℚ :=
  if progress < transitionDuration / photoDuration then
    progress / (transitionDuration / photoDuration)
  else if progress > 1 - transitionDuration / photoDuration then
    (1 - progress) / (1 - (1 - transitionDuration / photoDuration))
  else 1

/-- The guarded drawable lookup of `renderFrame`:
`if (photoIndex < images.length) ... images[photoIndex] ...`; `none`
models the branch drawing no photo. -/
def drawnImage (images : List Drawable) (fps photoDuration : ℚ) (frame : ℕ) :
    Option Drawable :=
  let pi := photoIndex fps photoDuration frame
  if pi < (images.length : ℤ) then images[pi.toNat]? else none

/-- The overlay lookup `photos[photoIndex] || fallback-object`: an index
outside the array yields the empty record, never a fault. -/
def overlayPhoto (photos : List Photo) (i : ℤ) : Photo :=
  if 0 ≤ i then photos.getD i.toNat emptyPhoto else emptyPhoto

/-- The canvas work of one frame inside the `try` block; whether the drawing
calls throw at a given frame is decided by the external environment,
abstracted as the `throws` predicate. -/
def drawFrame (throws : ℕ → Bool) (frame : ℕ) : Except String Unit :=
  if throws frame then Except.error "Frame render error" else Except.ok ()

/-- The body of `renderFrame` past the completion and stop checks:
`try` draws and then increments `frame`; `catch` logs, still increments
`frame`, and re-arms the loop.  Returns the next frame value and the
error surfaced to the caller (always `none`: the catch swallows it). -/
def renderTick (throws : ℕ → Bool) (frame : ℕ) : ℕ × Option String :=
  match drawFrame throws frame with
  | Except.ok _ => (frame + 1, none)
  | Except.error _ => (frame + 1, none)

/-- The values the frame counter takes over one render loop, in order:
`renderFrame` re-arms itself while `frame < totalFrames` and signals the
recorder to stop at the first frame value reaching `totalFrames`. -/
def renderTrace (throws : ℕ → Bool) (tf : ℚ) (frame : ℕ) : List ℕ :=
  if h : (frame : ℚ) < tf then
    frame :: renderTrace throws tf (renderTick throws frame).1
  else [frame]
termination_by ⌈tf⌉.toNat - frame
decreasing_by
  have h2 : (renderTick throws frame).1 = frame + 1 := by
    cases hth : throws frame <;> simp [renderTick, drawFrame, hth]
  have h1 : (frame : ℤ) < ⌈tf⌉ := Int.lt_ceil.mpr (by exact_mod_cast h)
  rw [h2]
  omega

/-- The three asynchronous completion signals of one render session. -/
inductive Signal
  | timerFired
  | recorderStopped
  | recorderErrored
deriving DecidableEq

/-- What each completion handler settles the returned promise to when
it wins the race. -/
inductive Outcome
  | resolvedBlob
  | rejectedTimeout
  | rejectedRecorderError
deriving DecidableEq

/-- Which handler belongs to which signal: the timer rejects with the
timeout error, `onstop` resolves with the blob, `onerror` rejects with
the recording-failed error. -/
def Signal.outcome : Signal → Outcome
  | Signal.timerFired => Outcome.rejectedTimeout
  | Signal.recorderStopped => Outcome.resolvedBlob
  | Signal.recorderErrored => Outcome.rejectedRecorderError

/-- Observable state of the completion machinery of a session: the
`isCompleted` guard, the settled outcome, and counters and flags
recording what the handlers and `cleanup` did. -/
structure GuardState where
  isCompleted : Bool
  outcome : Option Outcome
  settleCount : ℕ
  cleanupRuns : ℕ
  imagesReleased : Bool
  timerCancelled : Bool
deriving DecidableEq

/-- The state of the session when the promise executor installs the handlers. -/
def initialGuard : GuardState :=
  { isCompleted := false, outcome := none, settleCount := 0,
    cleanupRuns := 0, imagesReleased := false, timerCancelled := false }

/-- The `cleanup` function: blanks the `src` of every loaded image and clears
the pending timeout. -/
def runCleanup (g : GuardState) : GuardState :=
  { g with imagesReleased := true, timerCancelled := true,
           cleanupRuns := g.cleanupRuns + 1 }

/-- The shape shared by the three completion handlers: when
`isCompleted` is already set the handler returns without any effect;
otherwise it sets the guard, runs `cleanup`, and settles the promise
with its own outcome. -/
def handleSignal (g : GuardState) (s : Signal) : GuardState :=
  if g.isCompleted then g
  else
    let g1 := runCleanup { g with isCompleted := true }
    { g1 with outcome := some s.outcome, settleCount := g1.settleCount + 1 }

/-- Deliver an interleaving of completion signals: the single-threaded
event loop runs the handlers one at a time in arrival order. -/
def runSignals (sigs : List Signal) : GuardState :=
  sigs.foldl handleSignal initialGuard

/-- Source expression: `photo.image_data || photo.thumbnail_data`. -/
def photoSrc (p : Photo) : Option String :=
  p.image_data.orElse fun _ => p.thumbnail_data

/-- Source predicate of the filter in the wrapper:
`p.image_data || p.thumbnail_data` is truthy. -/
def hasData (p : Photo) : Bool := (photoSrc p).isSome

/-- `loadImage(src)`: resolves to the decoded image or rejects; decoding
is performed by the browser, abstracted as `decode`.  A missing source
value rejects (the `Image` never fires `onload`). -/
def loadImage (decode : String → Except Unit Drawable) :
    Option String → Except Unit Drawable
  | none => Except.error ()
  | some s => decode s

/-- The load barrier `await Promise.all(photos.map(... loadImage ...))`:
resolves to the full drawable list, or rejects as soon as any single
load rejects. -/
def loadAllImages (decode : String → Except Unit Drawable) (photos : List Photo) :
    Except Unit (List Drawable) :=
  photos.mapM fun p => loadImage decode (photoSrc p)

/-- The failure kinds a generation run can settle with. -/
inductive GenError
  | loadFailed
  | noPhotosAvailable
  | timedOut
  | recorderFailed
deriving DecidableEq

/-- What one call of `generateMarketingVideo` does on the signal-free
path (the recorder reports no error and the timeout does not fire):
which resources get allocated, how far the frame counter ran, and what
the returned promise settles to. -/
structure GenOutcome where
  canvasAllocated : Bool
  recorderCreated : Bool
  recorderStarted : Bool
  framesRendered : ℕ
  finalFrame : ℕ
  result : Except GenError Unit

/-- The body of `generateMarketingVideo`: the canvas and the
`MediaRecorder` are created unconditionally before anything else; the
load barrier then either rejects the whole call or yields the images;
on success the recorder starts and the render loop runs the frame
counter from 0 until it reaches `totalFrames`, whereupon `onstop`
resolves with the blob. -/
def generateMarketingVideo (decode : String → Except Unit Drawable)
    (photos : List Photo) (opts : VideoOptions) (throws : ℕ → Bool) : GenOutcome :=
  match loadAllImages decode photos with
  | Except.error _ =>
      { canvasAllocated := true, recorderCreated := true, recorderStarted := false,
        framesRendered := 0, finalFrame := 0,
        result := Except.error GenError.loadFailed }
  | Except.ok images =>
      let tf := totalFrames images.length opts.photoDuration opts.fps
      let trace := renderTrace throws tf 0
      { canvasAllocated := true, recorderCreated := true, recorderStarted := true,
        framesRendered := trace.length - 1, finalFrame := trace.getLastD 0,
        result := Except.ok () }

/-- Source constant: the fixed category order of the wrapper. -/
def categoryOrder : List String :=
  ["before_car", "before_wheel", "during", "after_wheel", "after_car"]

/-- JS `Array.prototype.indexOf` on the category order: the first index
of the value, and -1 when the value (or the property itself) is absent. -/
def categoryIndex : Option String → ℤ
  | none => -1
  | some c =>
    match categoryOrder.indexOf? c with
    | some i => (i : ℤ)
    | none => -1

/-- Source expression: `a.sequence || 0`. -/
def seqValue (p : Photo) : ℤ := p.sequence.getD 0

/-- The sort comparator of the wrapper: the category-index difference when it
is nonzero, the sequence difference otherwise. -/
def photoCompare (a b : Photo) : ℤ :=
  if categoryIndex a.category - categoryIndex b.category ≠ 0 then
    categoryIndex a.category - categoryIndex b.category
  else seqValue a - seqValue b

/-- Whether the comparator lets `a` stand at or before `b` (compare
result at most 0). -/
def photoLe (a b : Photo) : Bool := photoCompare a b ≤ 0

/-- The wrapper step `[...photos].sort(comparator)`: JS `sort` is a stable
sort agreeing with the comparator, embedded as a stable merge sort. -/
def sortPhotos (photos : List Photo) : List Photo :=
  photos.mergeSort photoLe

/-- The wrapper step `sortedPhotos.filter(p => p.image_data || p.thumbnail_data)`. -/
def selectedPhotos (photos : List Photo) : List Photo :=
  (sortPhotos photos).filter hasData

/-- What one call of the wrapper does: whether the generator was
reached, its run when it was, and the overall settled result. -/
structure DownloadOutcome where
  generatorInvoked : Bool
  generatorRun : Option GenOutcome
  result : Except GenError Unit

/-- The body of `generateAndDownloadVideo`: sort, filter, throw the
no-photos error when nothing survives, and otherwise hand the selected
photos to `generateMarketingVideo` (the catch block rethrows, so the
settled result is that of the generator). -/
def generateAndDownloadVideo (decode : String → Except Unit Drawable)
    (photos : List Photo) (opts : VideoOptions) (throws : ℕ → Bool) :
    DownloadOutcome :=
  let selected := selectedPhotos photos
  if selected.isEmpty then
    { generatorInvoked := false, generatorRun := none,
      result := Except.error GenError.noPhotosAvailable }
  else
    let g := generateMarketingVideo decode selected opts throws
    { generatorInvoked := true, generatorRun := some g, result := g.result }

/-- A handler that arrives after the guard is set returns the state
unchanged: the second resolution attempt is a no-op. -/
theorem handleSignal_completed (g : GuardState) (s : Signal)
    (h : g.isCompleted = true) : handleSignal g s = g := by
  simp [handleSignal, h]

/-- Once the guard is set, any further stream of signals is ignored. -/
theorem foldl_handleSignal_completed (l : List Signal) (g : GuardState)
    (h : g.isCompleted = true) : l.foldl handleSignal g = g := by
  induction l with
  | nil => rfl
  | cons t ts ih => rw [List.foldl_cons, handleSignal_completed g t h]; exact ih

/-- The state after any nonempty interleaving is fully determined by the
first signal: guard set, its outcome settled once, cleanup run once. -/
theorem runSignals_cons (s : Signal) (rest : List Signal) :
    runSignals (s :: rest) =
      { isCompleted := true, outcome := some s.outcome, settleCount := 1,
        cleanupRuns := 1, imagesReleased := true, timerCancelled := true } := by
  unfold runSignals
  rw [List.foldl_cons]
  have h1 : handleSignal initialGuard s =
      { isCompleted := true, outcome := some s.outcome, settleCount := 1,
        cleanupRuns := 1, imagesReleased := true, timerCancelled := true } := rfl
  rw [h1]
  exact foldl_handleSignal_completed rest _ rfl

/-- C1: the completion guard transitions at most once.  Across every
interleaving of the three asynchronous completion signals (scheduler
stop, recorder error, timeout) the promise is settled exactly once, the
outcome of the first-arriving signal wins, and a handler firing after the
guard is set is a no-op on the state rather than an error. -/
theorem completion_guard_single_transition (s : Signal) (rest : List Signal) :
    (runSignals (s :: rest)).settleCount = 1 ∧
    (runSignals (s :: rest)).outcome = some s.outcome ∧
    (∀ g : GuardState, g.isCompleted = true →
        ∀ t : Signal, handleSignal g t = g) := by
  rw [runSignals_cons]
  exact ⟨rfl, rfl, fun g hg t => handleSignal_completed g t hg⟩

/-- C8: on every terminal path — normal completion, recorder error,
timeout — the loaded drawables are released and the pending timer is
cancelled, and this cleanup runs exactly once regardless of which
signal triggered the terminal transition. -/
theorem cleanup_runs_exactly_once (s : Signal) (rest : List Signal) :
    (runSignals (s :: rest)).cleanupRuns = 1 ∧
    (runSignals (s :: rest)).imagesReleased = true ∧
    (runSignals (s :: rest)).timerCancelled = true := by
  rw [runSignals_cons]
  exact ⟨rfl, rfl, rfl⟩

/-- C2 counterexample: with one photo, photoDurationMs = 50 and
fps = 30 the source computes totalFrames = 3/2, while the
round(...) formula of the spec gives 2: the frame count of the session is not the
rounded value. -/
theorem totalFrames_differs_from_round :
    totalFrames 1 50 30 = 3 / 2 ∧
    specTotalFrames 1 50 30 = 2 ∧
    totalFrames 1 50 30 ≠ (specTotalFrames 1 50 30 : ℚ) := by
  have h1 : totalFrames 1 50 30 = 3 / 2 := by
    norm_num [totalFrames, totalDuration]
  have h2 : specTotalFrames 1 50 30 = 2 := by
    have h3 : ((1 : ℕ) : ℚ) * 50 / 1000 * 30 = 3 / 2 := by norm_num
    unfold specTotalFrames
    rw [h3, round_eq]
    rw [Int.floor_eq_iff] <;> norm_num
  refine ⟨h1, h2, ?_⟩
  rw [h1, h2]
  norm_num

/-- C2 amended: the frame count fixed at session start is exactly
N * photoDurationMs / 1000 * fps, with no rounding applied; whenever
that value is an integer — in particular under the default
configuration — it coincides with the round(...) formula of the spec. -/
theorem totalFrames_exact_and_round_when_integral (n : ℕ) (pd fps : ℚ) (k : ℤ)
    (h : (n : ℚ) * pd / 1000 * fps = (k : ℚ)) :
    totalFrames n pd fps = (n : ℚ) * pd / 1000 * fps ∧
    totalFrames n pd fps = (specTotalFrames n pd fps : ℚ) := by
  have heq : totalFrames n pd fps = (n : ℚ) * pd / 1000 * fps := by
    unfold totalFrames totalDuration; ring
  refine ⟨heq, ?_⟩
  unfold specTotalFrames
  rw [heq, h, round_intCast]

/-- Witness for the amended C2: five photos at the default 2000 ms and
30 fps give exactly 300 frames, agreeing with the rounded formula. -/
theorem totalFrames_round_witness :
    totalFrames 5 2000 30 = (specTotalFrames 5 2000 30 : ℚ) :=
  (totalFrames_exact_and_round_when_integral 5 2000 30 300 (by norm_num)).2

/-- C3 counterexample: calling generateMarketingVideo directly with an
empty photo array does not fail with a no-input error kind: the canvas
and the recorder are allocated, the recorder starts, and the promise
resolves successfully with an (empty) blob. -/
theorem empty_photos_resolve_blob :
    (generateMarketingVideo (fun s => Except.ok ⟨s⟩) [] {} fun _ => false).result
        = Except.ok () ∧
    (generateMarketingVideo (fun s => Except.ok ⟨s⟩) [] {} fun _ => false).canvasAllocated
        = true ∧
    (generateMarketingVideo (fun s => Except.ok ⟨s⟩) [] {} fun _ => false).recorderCreated
        = true ∧
    (generateMarketingVideo (fun s => Except.ok ⟨s⟩) [] {} fun _ => false).recorderStarted
        = true :=
  ⟨rfl, rfl, rfl, rfl⟩

/-- C3 amended: the non-empty-input validation lives in
generateAndDownloadVideo, not in generateMarketingVideo: when no photo
survives the data filter, the wrapper throws the distinct no-photos
error before invoking the generator (hence before any canvas or
recorder allocation); generateMarketingVideo itself performs no such
check and, given an empty array, allocates the canvas and recorder and
resolves with an empty blob. -/
theorem no_input_error_raised_by_wrapper (decode : String → Except Unit Drawable)
    (photos : List Photo) (opts : VideoOptions) (throws : ℕ → Bool)
    (h : ∀ p ∈ photos, hasData p = false) :
    (generateAndDownloadVideo decode photos opts throws).result
        = Except.error GenError.noPhotosAvailable ∧
    (generateAndDownloadVideo decode photos opts throws).generatorInvoked = false ∧
    (generateMarketingVideo decode [] opts throws).result = Except.ok () := by
  have hsel : selectedPhotos photos = [] := by
    unfold selectedPhotos
    rw [List.filter_eq_nil_iff]
    intro p hp
    have hmem : p ∈ photos := by
      unfold sortPhotos at hp
      exact List.mem_mergeSort.mp hp
    simp [h p hmem]
  constructor
  · unfold generateAndDownloadVideo
    rw [hsel]
    rfl
  constructor
  · unfold generateAndDownloadVideo
    rw [hsel]
    rfl
  · rfl

/-- Witness for the amended C3: a photo with neither image nor
thumbnail data makes the wrapper fail without reaching the generator. -/
theorem no_input_wrapper_witness :
    (generateAndDownloadVideo (fun s => Except.ok ⟨s⟩)
        [⟨none, none, some "during", none⟩] {} fun _ => false).generatorInvoked
      = false :=
  (no_input_error_raised_by_wrapper (fun s => Except.ok ⟨s⟩)
      [⟨none, none, some "during", none⟩] {} (fun _ => false)
      (by intro p hp; rw [List.mem_singleton] at hp; subst hp; rfl)).2.1

/-- In the Except monad, mapM fails whenever any element fails. -/
theorem mapM_error_of_mem {α β : Type} (f : α → Except Unit β) (l : List α)
    (a : α) (ha : a ∈ l) (hf : f a = Except.error ()) :
    l.mapM f = Except.error () := by
  induction l with
  | nil => cases ha
  | cons x xs ih =>
    rw [List.mapM_cons]
    rcases List.mem_cons.mp ha with rfl | hmem
    · rw [hf]; rfl
    · cases hx : f x with
      | error e => cases e; rfl
      | ok b =>
        rw [ih hmem]
        rfl

/-- C5: if any single image fails to decode during the load barrier,
the entire job fails with the load error: the recorder never starts and
no frame is rendered, so no partial output exists. -/
theorem single_decode_failure_fails_job (decode : String → Except Unit Drawable)
    (photos : List Photo) (opts : VideoOptions) (throws : ℕ → Bool) (p : Photo)
    (hp : p ∈ photos) (hfail : loadImage decode (photoSrc p) = Except.error ()) :
    (generateMarketingVideo decode photos opts throws).result
        = Except.error GenError.loadFailed ∧
    (generateMarketingVideo decode photos opts throws).framesRendered = 0 ∧
    (generateMarketingVideo decode photos opts throws).recorderStarted = false := by
  have hload : loadAllImages decode photos = Except.error () := by
    unfold loadAllImages
    exact mapM_error_of_mem _ photos p hp hfail
  unfold generateMarketingVideo
  rw [hload]
  exact ⟨rfl, rfl, rfl⟩

/-- Witness for C5: one photo whose decode rejects makes the whole call
settle with the load error. -/
theorem decode_failure_witness :
    (generateMarketingVideo (fun _ => Except.error ())
        [⟨some "img", none, some "during", none⟩] {} fun _ => false).result
      = Except.error GenError.loadFailed :=
  (single_decode_failure_fails_job (fun _ => Except.error ())
      [⟨some "img", none, some "during", none⟩] {} (fun _ => false)
      ⟨some "img", none, some "during", none⟩ (List.mem_singleton.mpr rfl) rfl).1

/-- Whether or not the draw call throws, the tick advances the frame
counter by exactly one. -/
theorem renderTick_fst (throws : ℕ → Bool) (frame : ℕ) :
    (renderTick throws frame).1 = frame + 1 := by
  cases hth : throws frame <;> simp [renderTick, drawFrame, hth]

/-- The trajectory of the frame counter does not depend on which frames
throw during drawing. -/
theorem renderTrace_congr (t1 t2 : ℕ → Bool) (tf : ℚ) (f : ℕ) :
    renderTrace t1 tf f = renderTrace t2 tf f := by
  have key : ∀ k f : ℕ, ⌈tf⌉.toNat ≤ f + k →
      renderTrace t1 tf f = renderTrace t2 tf f := by
    intro k
    induction k with
    | zero =>
      intro f hf
      have hnot : ¬ ((f : ℚ) < tf) := by
        intro hlt
        have h1 : (f : ℤ) < ⌈tf⌉ := Int.lt_ceil.mpr (by exact_mod_cast hlt)
        omega
      rw [renderTrace.eq_def]
      conv_rhs => rw [renderTrace.eq_def]
      rw [dif_neg hnot, dif_neg hnot]
    | succ k ih =>
      intro f hf
      rw [renderTrace.eq_def]
      conv_rhs => rw [renderTrace.eq_def]
      by_cases hlt : (f : ℚ) < tf
      · rw [dif_pos hlt, dif_pos hlt, renderTick_fst, renderTick_fst,
          ih (f + 1) (by omega)]
      · rw [dif_neg hlt, dif_neg hlt]
  exact key ⌈tf⌉.toNat f (by omega)

/-- C4: a frame whose draw call throws is recovered locally: the tick
still advances the counter by one and surfaces no error to the caller,
and the whole run — resource flags, frames rendered, and the settled
result — is identical to a run in which no frame throws; a single
throwing frame never fails the job. -/
theorem render_frame_error_isolated (throws : ℕ → Bool) (frame : ℕ) (e : String)
    (hthrow : drawFrame throws frame = Except.error e) :
    renderTick throws frame = (frame + 1, none) ∧
    (∀ (decode : String → Except Unit Drawable) (photos : List Photo)
        (opts : VideoOptions),
        generateMarketingVideo decode photos opts throws
          = generateMarketingVideo decode photos opts fun _ => false) := by
  constructor
  · unfold renderTick
    rw [hthrow]
  · intro decode photos opts
    unfold generateMarketingVideo
    cases hl : loadAllImages decode photos with
    | error err => rfl
    | ok images =>
      simp only [renderTrace_congr throws fun _ => false]

/-- Witness for C4: with every frame throwing, the tick from frame 0
still advances to 1 and surfaces nothing. -/
theorem render_error_witness :
    renderTick (fun _ => true) 0 = (1, none) :=
  (render_frame_error_isolated (fun _ => true) 0 "Frame render error" rfl).1

/-- C6: the fade alpha lies in [0, 1] for every photo progress in
[0, 1] — hence for the progress of every frame of every session — and
with transitionDurationMs = 500 and photoDurationMs = 2000 it is 0 at
progress 0, is 1 at progress 1/4, stays 1 through progress 3/4, and is
back to 0 at progress 1. -/
theorem fade_alpha_bounds :
    (∀ td pd progress : ℚ, 0 ≤ progress → progress ≤ 1 →
        0 ≤ fadeAlpha td pd progress ∧ fadeAlpha td pd progress ≤ 1) ∧
    (∀ fps pd td : ℚ, ∀ frame : ℕ, pd ≠ 0 →
        0 ≤ fadeAlpha td pd (photoProgress fps pd frame) ∧
        fadeAlpha td pd (photoProgress fps pd frame) ≤ 1) ∧
    fadeAlpha 500 2000 0 = 0 ∧
    fadeAlpha 500 2000 (1 / 4) = 1 ∧
    (∀ progress : ℚ, 1 / 4 ≤ progress → progress ≤ 3 / 4 →
        fadeAlpha 500 2000 progress = 1) ∧
    fadeAlpha 500 2000 1 = 0 := by
  have hbounds : ∀ td pd progress : ℚ, 0 ≤ progress → progress ≤ 1 →
      0 ≤ fadeAlpha td pd progress ∧ fadeAlpha td pd progress ≤ 1 := by
    intro td pd p h0 h1
    unfold fadeAlpha
    split_ifs with hin hout
    · have hpos : 0 < td / pd := lt_of_le_of_lt h0 hin
      exact ⟨div_nonneg h0 hpos.le, by rw [div_le_one hpos]; exact hin.le⟩
    · have hpos : 0 < 1 - (1 - td / pd) := by linarith
      exact ⟨div_nonneg (by linarith) hpos.le, by rw [div_le_one hpos]; linarith⟩
    · norm_num
  have hfract : ∀ fps pd : ℚ, ∀ frame : ℕ, pd ≠ 0 →
      photoProgress fps pd frame = Int.fract (currentTime fps frame / pd) := by
    intro fps pd frame hpd
    unfold photoProgress jsMod Int.fract
    field_simp
  refine ⟨hbounds, ?_, ?_, ?_, ?_, ?_⟩
  · intro fps pd td frame hpd
    rw [hfract fps pd frame hpd]
    exact hbounds td pd _ (Int.fract_nonneg _) (Int.fract_lt_one _).le
  · norm_num [fadeAlpha]
  · norm_num [fadeAlpha]
  · intro p hlow hhigh
    unfold fadeAlpha
    rw [if_neg (by norm_num; linarith), if_neg (by norm_num; linarith)]
  · norm_num [fadeAlpha]

/-- The first observed frame value of every render loop is its start value. -/
theorem renderTrace_head (throws : ℕ → Bool) (tf : ℚ) (f : ℕ) :
    (renderTrace throws tf f).head? = some f := by
  rw [renderTrace.eq_def]
  split <;> rfl

/-- The observed frame values are non-decreasing. -/
theorem renderTrace_chain (throws : ℕ → Bool) (tf : ℚ) (f : ℕ) :
    List.Chain' (fun a b => a ≤ b) (renderTrace throws tf f) := by
  have key : ∀ k f : ℕ, ⌈tf⌉.toNat ≤ f + k →
      List.Chain' (fun a b => a ≤ b) (renderTrace throws tf f) := by
    intro k
    induction k with
    | zero =>
      intro f hf
      have hnot : ¬ ((f : ℚ) < tf) := by
        intro hlt
        have h1 : (f : ℤ) < ⌈tf⌉ := Int.lt_ceil.mpr (by exact_mod_cast hlt)
        omega
      rw [renderTrace.eq_def, dif_neg hnot]
      simp
    | succ k ih =>
      intro f hf
      rw [renderTrace.eq_def]
      by_cases hlt : (f : ℚ) < tf
      · rw [dif_pos hlt, renderTick_fst]
        refine List.chain'_cons'.mpr ⟨?_, ih (f + 1) (by omega)⟩
        intro b hb
        rw [renderTrace_head] at hb
        cases hb
        omega
      · rw [dif_neg hlt]
        simp
  exact key ⌈tf⌉.toNat f (by omega)

/-- Every observed frame value is bounded by the start value or by the
ceiling of totalFrames. -/
theorem renderTrace_le (throws : ℕ → Bool) (tf : ℚ) (f x : ℕ)
    (hx : x ∈ renderTrace throws tf f) : x ≤ max f ⌈tf⌉.toNat := by
  have key : ∀ k f : ℕ, ⌈tf⌉.toNat ≤ f + k → ∀ x : ℕ,
      x ∈ renderTrace throws tf f → x ≤ max f ⌈tf⌉.toNat := by
    intro k
    induction k with
    | zero =>
      intro f hf x hx
      have hnot : ¬ ((f : ℚ) < tf) := by
        intro hlt
        have h1 : (f : ℤ) < ⌈tf⌉ := Int.lt_ceil.mpr (by exact_mod_cast hlt)
        omega
      rw [renderTrace.eq_def, dif_neg hnot] at hx
      rw [List.mem_singleton] at hx
      omega
    | succ k ih =>
      intro f hf x hx
      rw [renderTrace.eq_def] at hx
      by_cases hlt : (f : ℚ) < tf
      · rw [dif_pos hlt, renderTick_fst] at hx
        have hceil : f + 1 ≤ ⌈tf⌉.toNat := by
          have h1 : (f : ℤ) < ⌈tf⌉ := Int.lt_ceil.mpr (by exact_mod_cast hlt)
          omega
        rcases List.mem_cons.mp hx with rfl | hmem
        · omega
        · have := ih (f + 1) (by omega) x hmem
          omega
      · rw [dif_neg hlt] at hx
        rw [List.mem_singleton] at hx
        omega
  exact key ⌈tf⌉.toNat f (by omega) x hx

/-- C7 amended: the frame counter starts at 0 and is non-decreasing,
and every observed value is at most the ceiling of totalFrames;
whenever totalFrames is itself a natural number — as under the default
configuration — the counter never exceeds totalFrames. -/
theorem frame_counter_monotone_bounded (throws : ℕ → Bool) (tf : ℚ) :
    (renderTrace throws tf 0).head? = some 0 ∧
    List.Chain' (fun a b => a ≤ b) (renderTrace throws tf 0) ∧
    (∀ x ∈ renderTrace throws tf 0, x ≤ ⌈tf⌉.toNat) ∧
    (∀ m : ℕ, tf = (m : ℚ) → ∀ x ∈ renderTrace throws tf 0, (x : ℚ) ≤ tf) := by
  refine ⟨renderTrace_head throws tf 0, renderTrace_chain throws tf 0, ?_, ?_⟩
  · intro x hx
    have := renderTrace_le throws tf 0 x hx
    omega
  · intro m hm x hx
    have hb := renderTrace_le throws tf 0 x hx
    have hc : ⌈tf⌉ = (m : ℤ) := by rw [hm]; exact Int.ceil_natCast m
    have hxm : x ≤ m := by omega
    rw [hm]
    exact_mod_cast hxm

/-- C7 counterexample: with one photo, photoDurationMs = 50 and
fps = 30 the totalFrames of the session is 3/2, and the observed frame
counter values are 0, 1, 2 — the final observed value strictly exceeds
totalFrames. -/
theorem frame_counter_exceeds_totalFrames :
    totalFrames 1 50 30 = 3 / 2 ∧
    renderTrace (fun _ => false) (totalFrames 1 50 30) 0 = [0, 1, 2] ∧
    ¬ ((2 : ℚ) ≤ totalFrames 1 50 30) := by
  have h32 : totalFrames 1 50 30 = 3 / 2 := by
    norm_num [totalFrames, totalDuration]
  refine ⟨h32, ?_, by rw [h32]; norm_num⟩
  rw [h32]
  rw [renderTrace.eq_def, dif_pos (by norm_num), renderTick_fst]
  rw [renderTrace.eq_def, dif_pos (by norm_num), renderTick_fst]
  rw [renderTrace.eq_def, dif_neg (by norm_num)]

/-- C9: while frameIndex < totalFrames the computed photoIndex is
nonnegative and strictly below the number of loaded drawables, so the
guarded lookup always takes its in-bounds branch and finds an image;
and the overlay lookup falls back to the empty record instead of
faulting on any out-of-range index. -/
theorem photo_index_in_bounds (n frame : ℕ) (fps pd : ℚ)
    (hfps : 0 < fps) (hpd : 0 < pd)
    (hframe : (frame : ℚ) < totalFrames n pd fps) :
    0 ≤ photoIndex fps pd frame ∧
    photoIndex fps pd frame < (n : ℤ) ∧
    (∀ images : List Drawable, images.length = n →
        (drawnImage images fps pd frame).isSome = true) ∧
    (∀ photos : List Photo, ∀ i : ℤ,
        ((photos.length : ℤ) ≤ i ∨ i < 0) → overlayPhoto photos i = emptyPhoto) := by
  have h0 : 0 ≤ currentTime fps frame / pd := by
    apply div_nonneg _ hpd.le
    unfold currentTime
    positivity
  have hnn : 0 ≤ photoIndex fps pd frame := Int.floor_nonneg.mpr h0
  have hlt : photoIndex fps pd frame < (n : ℤ) := by
    unfold photoIndex currentTime
    rw [Int.floor_lt]
    unfold totalFrames totalDuration at hframe
    rw [div_lt_iff hpd, div_mul_eq_mul_div, div_lt_iff hfps]
    push_cast
    nlinarith [hframe]
  refine ⟨hnn, hlt, ?_, ?_⟩
  · intro images hlen
    simp only [drawnImage]
    rw [if_pos (by omega)]
    rw [List.getElem?_eq_getElem (by omega)]
    rfl
  · intro photos i hi
    unfold overlayPhoto
    rcases hi with hge | hneg
    · rw [if_pos (by omega)]
      apply List.getD_eq_default
      omega
    · rw [if_neg (by omega)]

/-- Witness for C9: two photos at the defaults, frame 5 of 120: the
photo index is 0, inside the two loaded drawables. -/
theorem photo_index_witness :
    0 ≤ photoIndex 30 2000 5 ∧ photoIndex 30 2000 5 < (2 : ℤ) :=
  ⟨(photo_index_in_bounds 2 5 30 2000 (by norm_num) (by norm_num)
      (by norm_num [totalFrames, totalDuration])).1,
   (photo_index_in_bounds 2 5 30 2000 (by norm_num) (by norm_num)
      (by norm_num [totalFrames, totalDuration])).2.1⟩

/-- The comparator admits `a` before `b` exactly when (category index,
sequence) of `a` is lexicographically at most that of `b`. -/
theorem photoLe_iff (a b : Photo) :
    photoLe a b = true ↔
      (categoryIndex a.category < categoryIndex b.category ∨
        (categoryIndex a.category = categoryIndex b.category ∧
          seqValue a ≤ seqValue b)) := by
  simp only [photoLe, photoCompare, decide_eq_true_eq]
  split_ifs with h <;> omega

/-- The comparator relation is transitive. -/
theorem photoLe_trans (a b c : Photo) (hab : photoLe a b) (hbc : photoLe b c) :
    photoLe a c := by
  rw [photoLe_iff] at *
  omega

/-- The comparator relation is total. -/
theorem photoLe_total (a b : Photo) : photoLe a b || photoLe b a := by
  rw [Bool.or_eq_true, photoLe_iff, photoLe_iff]
  omega

/-- C10: before invoking the generator the wrapper reorders the photos
by the fixed category order and, within equal categories, by ascending
sequence (an absent sequence read as 0): the sorted list is a
permutation of the input and is pairwise ordered by the comparator,
which is exactly the lexicographic order on (category index, sequence)
with the five categories indexed 0..4 in the fixed order; the filter
keeps precisely the photos having image or thumbnail data; and when no
photo survives, the wrapper throws the no-photos error without invoking
the generator. -/
theorem wrapper_sorts_filters_and_guards (decode : String → Except Unit Drawable)
    (opts : VideoOptions) (throws : ℕ → Bool) (photos : List Photo) :
    List.Perm (sortPhotos photos) photos ∧
    List.Pairwise (fun a b => photoLe a b = true) (sortPhotos photos) ∧
    (∀ a b : Photo, photoLe a b = true ↔
        (categoryIndex a.category < categoryIndex b.category ∨
          (categoryIndex a.category = categoryIndex b.category ∧
            seqValue a ≤ seqValue b))) ∧
    (categoryIndex (some "before_car") = 0 ∧
      categoryIndex (some "before_wheel") = 1 ∧
      categoryIndex (some "during") = 2 ∧
      categoryIndex (some "after_wheel") = 3 ∧
      categoryIndex (some "after_car") = 4) ∧
    (∀ p : Photo, p ∈ selectedPhotos photos ↔
        p ∈ sortPhotos photos ∧ hasData p = true) ∧
    (selectedPhotos photos = [] →
        (generateAndDownloadVideo decode photos opts throws).result
            = Except.error GenError.noPhotosAvailable ∧
        (generateAndDownloadVideo decode photos opts throws).generatorInvoked
            = false) := by
  refine ⟨List.mergeSort_perm photos photoLe, ?_, photoLe_iff, ?_, ?_, ?_⟩
  · exact List.sorted_mergeSort photoLe_trans photoLe_total photos
  · refine ⟨rfl, rfl, rfl, rfl, rfl⟩
  · intro p
    unfold selectedPhotos
    exact List.mem_filter
  · intro hsel
    constructor
    · unfold generateAndDownloadVideo
      rw [hsel]
      rfl
    · unfold generateAndDownloadVideo
      rw [hsel]
      rfl

end VideoGen
